import Mathlib

/-!
# Tickets page: query dispatch and view-state reconciliation

A shallow embedding of `pages/Tickets.jsx`.

* The five `useState` cells are the fields of `View`.
* An `async` function is split at its single `await`: the statements before
  it run synchronously when the function is invoked (`fetchAllTickets`,
  `searchTickets`), the statements after it run when the awaited promise
  settles (`resume`).  A `World` carries the view together with the log of
  remote calls issued so far and the calls still in flight.
* State updates made in one synchronous run are applied together (batched),
  so a `World` is the state the component is rendered from between events.
* The remote store (`ticketService`) is outside the component: the outcome
  of each call is an input (`Outcome`).
-/

namespace Tickets

/-! ## Data model -/

/-- A value that is `null`, `undefined` or a string: the date-time fields of a
ticket, and what `formatDateTime` gives back. -/
inductive StrValue where
  | null
  | undefined
  | str (s : String)
  deriving DecidableEq, Repr

/-- A JavaScript number, by its mathematical value: `NaN`, plus or minus
`Infinity`, or a finite value.  Every finite double is a rational; `0`
stands for both zeros. -/
inductive Number where
  | nan
  | infinity (negative : Bool)
  | finite (q : ℚ)
  deriving DecidableEq

/-- The `price` field: a number, `null` or `undefined`. -/
inductive Price where
  | null
  | undefined
  | num (x : Number)
  deriving DecidableEq

/-- A ticket as delivered by the remote store. -/
structure Ticket where
  ticketId : String
  licensePlate : String
  lotId : String
  entryTime : StrValue
  exitTime : StrValue
  price : Price
  deriving DecidableEq

/-- The three operations of `ticketService` the page uses. -/
inductive RemoteCall where
  | getAllTickets
  | getTicketsByLicensePlate (plate : String)
  | getTicketsByLotId (lotId : String)
  deriving DecidableEq, Repr

/-- How an awaited remote call settles: the promise resolves with ticket data
or rejects with an error whose `message` is given. -/
inductive Outcome where
  | resolve (ticketData : List Ticket)
  | reject (message : String)
  deriving DecidableEq

/-- The component state: one field per `useState` cell (lines 5-9). -/
structure View where
  tickets : List Ticket
  loading : Bool
  error : String
  searchType : String
  searchQuery : String
  deriving DecidableEq

/-- The initial values handed to `useState` (lines 5-9). -/
def View.initial : View :=
  { tickets := [], loading := true, error := "", searchType := "all", searchQuery := "" }

/-- The component together with its environment: `issued` logs every remote
call made so far, in order; `pending` holds the positions in `issued` of the
calls whose promise has not settled yet. -/
structure World where
  view : View
  issued : List RemoteCall
  pending : List Nat
  deriving DecidableEq

/-- Start a remote call: it is appended to the log and is now in flight. -/
def World.call (w : World) (c : RemoteCall) : World :=
  { w with issued := w.issued ++ [c], pending := w.pending ++ [w.issued.length] }

/-! ## The controller -/

/-- Lines 15-19: `fetchAllTickets` up to its `await`. -/
def fetchAllTickets (w : World) : World :=
  let v := w.view
  let v := { v with loading := true }
  let v := { v with error := "" }
  ({ w with view := v }).call .getAllTickets

/-- Lines 28-45: `searchTickets` up to its `await`; the `switch` compares the
mode with `===` and its `default` shares the body of `case 'all'`. -/
def searchTickets (w : World) : World :=
  let v := w.view
  let v := { v with loading := true }
  let v := { v with error := "" }
  let w := { w with view := v }
  if v.searchType = "license" then
    w.call (.getTicketsByLicensePlate v.searchQuery)
  else if v.searchType = "lot" then
    w.call (.getTicketsByLotId v.searchQuery)
  else
    w.call .getAllTickets

/-- Lines 20-25 and 47-52, the same statements in both functions: what runs
once the awaited promise settles.  On resolve `setTickets(ticketData)`, on
reject `setError(err.message)`, and `setLoading(false)` in `finally`. -/
def resume (v : View) : Outcome → View
  | .resolve ticketData =>
    let v := { v with tickets := ticketData }
    { v with loading := false }
  | .reject message =>
    let v := { v with error := message }
    { v with loading := false }

/-- Lines 64-71: `handleSearch` (the `preventDefault` has no effect on the
state). -/
def handleSearch (w : World) : World :=
  if w.view.searchType = "all" then fetchAllTickets w else searchTickets w

/-- Lines 11-13: the mount effect runs `fetchAllTickets` on the freshly
created state. -/
def mount : World :=
  fetchAllTickets { view := View.initial, issued := [], pending := [] }

/-! ## Rendering -/

/-- JavaScript truthiness of a string: only the empty string is falsy. -/
def truthyString (s : String) : Bool := s != ""

/-- What the component returns: the loading screen (lines 73-79), or the page
with its optional error banner (lines 129-139), the ticket list it maps over
(line 144) and the optional empty-list heading (lines 208-213). -/
inductive Rendered where
  | loadingScreen
  | page (errorBanner : Option String) (cards : List Ticket) (emptyMessage : Option String)
  deriving DecidableEq

/-- Lines 73-224. -/
def render (v : View) : Rendered :=
  if v.loading then .loadingScreen
  else
    .page
      (if truthyString v.error then some v.error else none)
      v.tickets
      (if v.tickets.length = 0 && !v.loading then
        some (if v.searchType = "all" then "No tickets found" else "No matching tickets")
      else none)

/-- The error banner is on screen. -/
def errorVisible (v : View) : Bool :=
  match render v with
  | .page (some _) _ _ => true
  | _ => false

/-- The form (mode select, submit button) is on screen: lines 88-127 belong
to the page, not to the loading screen. -/
def formVisible (v : View) : Bool :=
  match render v with
  | .page _ _ _ => true
  | .loadingScreen => false

/-- The query input is on screen (line 105). -/
def queryInputVisible (v : View) : Bool :=
  formVisible v && (v.searchType = "license" || v.searchType = "lot")

/-! ## Events -/

/-- What can happen to a mounted component. -/
inductive Event where
  | setSearchType (value : String)
  | setSearchQuery (value : String)
  | submit
  | tryAgain
  | settle (id : Nat) (outcome : Outcome)
  deriving DecidableEq

/-- The handler attached to each event: `onChange` of the select (line 96)
and of the input (line 113), `onSubmit` (line 89), `onClick` of the retry
button (line 133), and the resumption of the call `id` when it settles (a
call settles once: afterwards it is no longer pending). -/
def step (w : World) : Event → World
  | .setSearchType value => { w with view := { w.view with searchType := value } }
  | .setSearchQuery value => { w with view := { w.view with searchQuery := value } }
  | .submit => handleSearch w
  | .tryAgain => fetchAllTickets w
  | .settle id outcome =>
    if id ∈ w.pending then
      { w with view := resume w.view outcome, pending := w.pending.erase id }
    else w

/-- The event can be raised through what is on screen (or, for `settle`, the
call is in flight). -/
def enabled (w : World) : Event → Bool
  | .setSearchType _ => formVisible w.view
  | .setSearchQuery _ => queryInputVisible w.view
  | .submit => formVisible w.view
  | .tryAgain => errorVisible w.view
  | .settle id _ => id ∈ w.pending

/-- Run the handlers of a sequence of events, whatever is on screen. -/
def run (w : World) : List Event → World
  | [] => w
  | e :: es => run (step w e) es

/-- Run a sequence of events raised through the user interface: `none` when
one of them is not enabled where it occurs. -/
def runUI (w : World) : List Event → Option World
  | [] => some w
  | e :: es => if enabled w e then runUI (step w e) es else none

/-- The remote call the specification assigns to a mode and a query. -/
def dispatchSpec (mode query : String) : RemoteCall :=
  if mode = "lot" then .getTicketsByLotId query
  else if mode = "license" then .getTicketsByLicensePlate query
  else .getAllTickets

/-! ## Formatting helpers -/

/-- JavaScript truthiness of a string-or-absent value. -/
def StrValue.truthy : StrValue → Bool
  | .str s => truthyString s
  | _ => false

/-- Lines 59-62: `formatDateTime`. -/
def formatDateTime (dateTimeString : StrValue) : StrValue :=
  if !dateTimeString.truthy then .str "N/A" else dateTimeString

/-- JavaScript `a || b` on string-or-absent values. -/
def StrValue.or (a b : StrValue) : StrValue :=
  if a.truthy then a else b

/-- Line 181: the exit-time cell, `formatDateTime(ticket.exitTime) || 'Still parked'`. -/
def exitTimeDisplay (exitTime : StrValue) : StrValue :=
  (formatDateTime exitTime).or (.str "Still parked")

/-- JavaScript truthiness of a number: `NaN` and zero are falsy. -/
def Number.truthy : Number → Bool
  | .nan => false
  | .infinity _ => true
  | .finite q => q != 0

/-- JavaScript truthiness of a price. -/
def Price.truthy : Price → Bool
  | .num x => x.truthy
  | _ => false

/-- The function `parseFloat` on a price: the argument is first converted to a
string and the longest numeric prefix is read back.  A number survives the
round trip (its string form determines it), `"null"` and `"undefined"` have
no numeric prefix. -/
def parseFloat : Price → Number
  | .num x => x
  | _ => .nan

/-- The position of the leading binary digit of `v` (the floor of its binary
logarithm), counted with at most `fuel` halvings. -/
def leadingBit : Nat → Nat → Nat
  | 0, _ => 0
  | fuel + 1, v => if v < 2 then 0 else leadingBit fuel (v / 2) + 1

/-- Round a positive integer to the nearest double (53 significant bits, ties
to the even significand). -/
def roundToDouble (v : Nat) : Nat :=
  let b := leadingBit v v
  if b ≤ 52 then v
  else
    let q := 2 ^ (b - 52)
    let r := v / q
    let rem := v % q
    let r := if 2 * rem > q ∨ (2 * rem = q ∧ r % 2 = 1) then r + 1 else r
    r * q

/-- The `k`-digit significands `s` for which `s * 10^(n-k)` rounds to the
double `x`; it is enough to try the two integers around `x / 10^(n-k)`. -/
def significands (x k n : Nat) : List Nat :=
  let p := 10 ^ (n - k)
  [x / p, x / p + 1].filter
    (fun s => 10 ^ (k - 1) ≤ s && s < 10 ^ k && roundToDouble (s * p) == x)

/-- Of two significands, the one whose value is nearer to `x`. -/
def nearer (x p : Nat) (s t : Nat) : Nat :=
  if (Int.natAbs ((t * p : Nat) - (x : Int))) < (Int.natAbs ((s * p : Nat) - (x : Int))) then t else s

/-- Search for the shortest decimal significand of the double `x`, trying
`k = 17 - fuel + 1, ...` digits and the two possible decimal exponents `n`.
The result is `(s, k, n)` with `x` the double nearest to `s * 10^(n-k)`. -/
def shortest (x d : Nat) : Nat → Nat → Option (Nat × Nat × Nat)
  | 0, _ => none
  | fuel + 1, k =>
    match significands x k d with
    | s :: rest => some (rest.foldl (nearer x (10 ^ (d - k))) s, k, d)
    | [] =>
      match significands x k (d + 1) with
      | s :: rest => some (rest.foldl (nearer x (10 ^ (d + 1 - k))) s, k, d + 1)
      | [] => shortest x d fuel (k + 1)

/-- The string form of a double `x ≥ 10^21` (an integer at that size), as
`Number::toString` gives it: the shortest significand that reads back as `x`,
in exponent notation since the decimal exponent exceeds 21. -/
def largeNumberToString (x : Nat) : String :=
  let d := (Nat.toDigits 10 x).length
  let (s, _, n) := (shortest x d 17 1).getD (x, d, d)
  let e := "e+" ++ String.mk (Nat.toDigits 10 (n - 1))
  match Nat.toDigits 10 s with
  | [c] => String.mk [c] ++ e
  | c :: cs => String.mk [c] ++ "." ++ String.mk cs ++ e
  | [] => e

/-- The method `Number.prototype.toFixed` with `fractionDigits` digits after
the point.  A non-finite number gives its name.  Otherwise the sign is split
off; a value of `10^21` or more gives its ordinary string form; below that
`n` is the integer nearest to `x * 10^f` (the larger one on a tie), its
decimal digits are padded with zeros to `f + 1` characters and the point is
put before the last `f`. -/
def toFixed (x : Number) (fractionDigits : Nat) : String :=
  match x with
  | .nan => "NaN"
  | .infinity false => "Infinity"
  | .infinity true => "-Infinity"
  | .finite q =>
    let f := fractionDigits
    let s := if q < 0 then "-" else ""
    let x := |q|
    if (10 : ℚ) ^ 21 ≤ x then s ++ largeNumberToString ⌊x⌋.toNat
    else
      let n := ⌊x * 10 ^ f + 1 / 2⌋.toNat
      let m := if n = 0 then ['0'] else Nat.toDigits 10 n
      if f ≠ 0 then
        let m := List.replicate (f + 1 - m.length) '0' ++ m
        let k := m.length
        s ++ String.mk (m.take (k - f)) ++ "." ++ String.mk (m.drop (k - f))
      else s ++ String.mk m

/-- Lines 55-57: `formatPrice`. -/
def formatPrice (price : Price) : String :=
  if price.truthy then "R " ++ toFixed (parseFloat price) 2 else "Not paid"

/-- The amount `ip.d1 d2` written with two decimal places, with a minus sign
when `negative`. -/
def twoDecimals (negative : Bool) (ip d1 d2 : Nat) : String :=
  (if negative then "-" else "") ++ Nat.repr ip ++ "." ++
    String.mk [Nat.digitChar d1, Nat.digitChar d2]

/-! ## Scenarios -/

/-- The two places of the page a query is issued from: the form (line 89) and
the retry button of the error banner (line 133). -/
inductive Trigger where
  | form
  | retry
  deriving DecidableEq

/-- The event a trigger raises. -/
def Trigger.event : Trigger → Event
  | .form => .submit
  | .retry => .tryAgain

/-- A view with the mode and the query string set to the given values. -/
def View.withSearch (v : View) (mode query : String) : View :=
  { v with searchType := mode, searchQuery := query }

/-- A world whose view has the mode and the query string set. -/
def World.withSearch (w : World) (mode query : String) : World :=
  { w with view := w.view.withSearch mode query }

/-- A ticket of a vehicle that is still parked. -/
def ticketA : Ticket :=
  { ticketId := "T-1", licensePlate := "CA 123-456", lotId := "LOT-1",
    entryTime := .str "2025-01-01T08:00:00", exitTime := .null, price := .null }

/-- A ticket of a finished, paid stay. -/
def ticketB : Ticket :=
  { ticketId := "T-2", licensePlate := "CA 654-321", lotId := "LOT-7",
    entryTime := .str "2025-01-02T09:30:00", exitTime := .str "2025-01-02T11:00:00",
    price := .num (.finite 45) }

/-- The state of a page whose queries never overlap: either the page is
loading, with no error held and exactly one call in flight, the one issued
last; or it is not loading and no call is in flight. -/
def Quiet (w : World) : Prop :=
  (w.view.loading = true ∧ w.view.error = "" ∧ w.pending = [w.issued.length - 1] ∧
      0 < w.issued.length) ∨
    (w.view.loading = false ∧ w.pending = [])

/-! ## Query dispatch -/

theorem call_issued (w : World) (c : RemoteCall) :
    (w.call c).issued = w.issued ++ [c] := rfl

theorem call_pending (w : World) (c : RemoteCall) :
    (w.call c).pending = w.pending ++ [w.issued.length] := rfl

theorem call_view (w : World) (c : RemoteCall) : (w.call c).view = w.view := rfl

theorem fetchAllTickets_issued (w : World) :
    (fetchAllTickets w).issued = w.issued ++ [.getAllTickets] := rfl

theorem fetchAllTickets_pending (w : World) :
    (fetchAllTickets w).pending = w.pending ++ [w.issued.length] := rfl

theorem fetchAllTickets_view (w : World) :
    (fetchAllTickets w).view = { w.view with loading := true, error := "" } := rfl

theorem searchTickets_issued (w : World) :
    (searchTickets w).issued =
      w.issued ++ [dispatchSpec w.view.searchType w.view.searchQuery] := by
  unfold searchTickets dispatchSpec
  by_cases h1 : w.view.searchType = "license"
  · have h2 : ¬ w.view.searchType = "lot" := by rw [h1]; decide
    simp [h1, call_issued]
  · by_cases h2 : w.view.searchType = "lot"
    · simp [h2, call_issued]
    · simp [h1, h2, call_issued]

theorem searchTickets_pending (w : World) :
    (searchTickets w).pending = w.pending ++ [w.issued.length] := by
  unfold searchTickets
  simp only []
  split_ifs <;> rfl

theorem searchTickets_view (w : World) :
    (searchTickets w).view = { w.view with loading := true, error := "" } := by
  unfold searchTickets
  simp only []
  split_ifs <;> rfl

theorem handleSearch_issued (w : World) :
    (handleSearch w).issued =
      w.issued ++ [dispatchSpec w.view.searchType w.view.searchQuery] := by
  unfold handleSearch
  by_cases h : w.view.searchType = "all"
  · rw [if_pos h, fetchAllTickets_issued, h]
    rfl
  · rw [if_neg h, searchTickets_issued]

theorem handleSearch_pending (w : World) :
    (handleSearch w).pending = w.pending ++ [w.issued.length] := by
  unfold handleSearch
  split_ifs
  · exact fetchAllTickets_pending w
  · exact searchTickets_pending w

theorem handleSearch_view (w : World) :
    (handleSearch w).view = { w.view with loading := true, error := "" } := by
  unfold handleSearch
  split_ifs
  · exact fetchAllTickets_view w
  · exact searchTickets_view w

/-- Whichever trigger issues a query, the view it leaves is the prior one
with `loading` set and `error` cleared, and the new call is the last one
pending. -/
theorem trigger_view (w : World) (t : Trigger) :
    (step w t.event).view = { w.view with loading := true, error := "" } := by
  cases t
  · exact handleSearch_view w
  · exact fetchAllTickets_view w

theorem trigger_pending (w : World) (t : Trigger) :
    (step w t.event).pending = w.pending ++ [w.issued.length] := by
  cases t
  · exact handleSearch_pending w
  · exact fetchAllTickets_pending w

theorem trigger_issued_length (w : World) (t : Trigger) :
    (step w t.event).issued.length = w.issued.length + 1 := by
  cases t
  · show (handleSearch w).issued.length = _
    rw [handleSearch_issued]; simp
  · show (fetchAllTickets w).issued.length = _
    rw [fetchAllTickets_issued]; simp

/-- Settling a call that is in flight resumes the function on the current
view. -/
theorem settle_view (w : World) (id : Nat) (o : Outcome) (h : id ∈ w.pending) :
    (step w (.settle id o)).view = resume w.view o := by
  simp [step, h]

theorem settle_pending (w : World) (id : Nat) (o : Outcome) (h : id ∈ w.pending) :
    (step w (.settle id o)).pending = w.pending.erase id := by
  simp [step, h]

/-- A query issued by a trigger and settled next: the view is the resumption
on the view the trigger left. -/
theorem trigger_then_settle (w : World) (t : Trigger) (o : Outcome) :
    (step (step w t.event) (.settle w.issued.length o)).view =
      resume { w.view with loading := true, error := "" } o := by
  rw [settle_view _ _ _ (by rw [trigger_pending]; simp), trigger_view]

/-- C1: a submission issues exactly one remote call, the one the mode selects:
`getTicketsByLotId` with the query for mode `lot`, `getTicketsByLicensePlate`
with the query for mode `license`, and `getAllTickets` for mode `all` and for
every other mode; the log of calls grows by that call and nothing else, for
every mode and every query string, the empty one included. -/
theorem handleSearch_issues_exactly_the_selected_call (w : World) (mode query : String) :
    (step (w.withSearch mode query) .submit).issued =
        w.issued ++ [dispatchSpec mode query] ∧
      (step (w.withSearch mode query) .submit).pending = w.pending ++ [w.issued.length] ∧
      (step (w.withSearch "lot" query) .submit).issued =
        w.issued ++ [.getTicketsByLotId query] ∧
      (step (w.withSearch "license" query) .submit).issued =
        w.issued ++ [.getTicketsByLicensePlate query] ∧
      (step (w.withSearch "all" query) .submit).issued = w.issued ++ [.getAllTickets] ∧
      (step (w.withSearch "lot" "") .submit).issued = w.issued ++ [.getTicketsByLotId ""] ∧
      (mode = "lot" ∨ mode = "license" ∨
        (step (w.withSearch mode query) .submit).issued = w.issued ++ [.getAllTickets]) := by
  refine ⟨handleSearch_issued _, handleSearch_pending _, handleSearch_issued _,
    handleSearch_issued _, handleSearch_issued _, handleSearch_issued _, ?_⟩
  by_cases h1 : mode = "lot"
  · exact Or.inl h1
  · by_cases h2 : mode = "license"
    · exact Or.inr (Or.inl h2)
    · refine Or.inr (Or.inr ?_)
      show (handleSearch _).issued = _
      rw [handleSearch_issued]
      simp [World.withSearch, View.withSearch, dispatchSpec, h1, h2]

/-! ## Reconciliation of one query -/

/-- C2 (as stated, refuted): the page is mounted, the first load succeeds with
one ticket, the user submits again and the call rejects with
"Network error".  The error is that message, but the ticket of the earlier
success is still held and still rendered under the banner. -/
theorem failure_keeps_prior_tickets :
    (runUI mount [.settle 0 (.resolve [ticketA]), .submit,
        .settle 1 (.reject "Network error")]).map (fun w => w.view) =
      some { tickets := [ticketA], loading := false, error := "Network error",
             searchType := "all", searchQuery := "" } ∧
    (runUI mount [.settle 0 (.resolve [ticketA]), .submit,
        .settle 1 (.reject "Network error")]).map (fun w => w.view.tickets) ≠ some [] ∧
    (runUI mount [.settle 0 (.resolve [ticketA]), .submit,
        .settle 1 (.reject "Network error")]).map (fun w => render w.view) =
      some (.page (some "Network error") [ticketA] none) := by
  decide

/-- C2 (amended): for every prior state, every trigger and every message `m`,
once the issued call rejects with `m` the error is exactly `m`, loading is
false, and the ticket list is the one held before the query: nothing is
discarded. -/
theorem failure_sets_error_and_leaves_tickets (w : World) (t : Trigger) (m : String) :
    (step (step w t.event) (.settle w.issued.length (.reject m))).view.error = m ∧
    (step (step w t.event) (.settle w.issued.length (.reject m))).view.loading = false ∧
    (step (step w t.event) (.settle w.issued.length (.reject m))).view.tickets =
      w.view.tickets := by
  rw [trigger_then_settle]
  exact ⟨rfl, rfl, rfl⟩

/-- C4: for every prior state, every trigger and every ticket sequence `s`,
once the issued call resolves with `s` the ticket list is `s` itself, the
error is empty and loading is false; the same holds for the load started on
mount. -/
theorem success_replaces_tickets (w : World) (t : Trigger) (s : List Ticket) :
    (step (step w t.event) (.settle w.issued.length (.resolve s))).view.tickets = s ∧
    (step (step w t.event) (.settle w.issued.length (.resolve s))).view.error = "" ∧
    (step (step w t.event) (.settle w.issued.length (.resolve s))).view.loading = false ∧
    (step mount (.settle 0 (.resolve s))).view =
      { View.initial with tickets := s, loading := false } := by
  rw [trigger_then_settle]
  exact ⟨rfl, rfl, rfl, rfl⟩

/-- C7: a query of any mode and query string is submitted and rejects with
message `m`; the retry button is then on screen exactly when `m` is not
empty, and pressing it issues the `getAllTickets` call and nothing else,
whatever the failed call was, with the mode and the query string left as they
were. -/
theorem retry_issues_getAllTickets (w : World) (mode query m : String) :
    (step (step (step (w.withSearch mode query) .submit)
        (.settle w.issued.length (.reject m))) .tryAgain).issued =
      w.issued ++ [dispatchSpec mode query, .getAllTickets] ∧
    (step (step (step (w.withSearch mode query) .submit)
        (.settle w.issued.length (.reject m))) .tryAgain).view.searchType = mode ∧
    (step (step (step (w.withSearch mode query) .submit)
        (.settle w.issued.length (.reject m))) .tryAgain).view.searchQuery = query ∧
    enabled (step (step (w.withSearch mode query) .submit)
        (.settle w.issued.length (.reject m))) .tryAgain = truthyString m := by
  have hp : w.issued.length ∈ (step (w.withSearch mode query) .submit).pending := by
    show _ ∈ (handleSearch _).pending
    rw [handleSearch_pending]
    simp [World.withSearch]
  have hs : step (step (w.withSearch mode query) .submit)
      (.settle w.issued.length (.reject m)) =
      { view := resume (handleSearch (w.withSearch mode query)).view (.reject m),
        issued := (handleSearch (w.withSearch mode query)).issued,
        pending := (handleSearch (w.withSearch mode query)).pending.erase w.issued.length } := by
    show step (handleSearch _) _ = _
    simp only [step]
    exact if_pos hp
  rw [hs]
  refine ⟨?_, ?_, ?_, ?_⟩
  · show (fetchAllTickets _).issued = _
    rw [fetchAllTickets_issued, handleSearch_issued]
    simp [World.withSearch, View.withSearch]
  · show (fetchAllTickets _).view.searchType = _
    rw [fetchAllTickets_view, handleSearch_view]
    rfl
  · show (fetchAllTickets _).view.searchQuery = _
    rw [fetchAllTickets_view, handleSearch_view]
    rfl
  · simp only [enabled, errorVisible, render, handleSearch_view, resume]
    cases h : truthyString m <;> simp [h]

/-- C8 (as stated, refuted): a run of the page.  The first load resolves, the
user selects the lot mode and submits, the call rejects, and the user presses
the retry button: the query issued is `getAllTickets`, an all-tickets query.
It resolves with the empty sequence, and the heading shown is
"No matching tickets", not "No tickets found", the lot mode being still
selected. -/
theorem retry_empty_result_shows_selected_mode_message :
    (runUI mount [.settle 0 (.resolve [ticketA]), .setSearchType "lot", .submit,
        .settle 1 (.reject "Request failed"), .tryAgain, .settle 2 (.resolve [])]).map
        (fun w => w.issued) =
      some [.getAllTickets, .getTicketsByLotId "", .getAllTickets] ∧
    (runUI mount [.settle 0 (.resolve [ticketA]), .setSearchType "lot", .submit,
        .settle 1 (.reject "Request failed"), .tryAgain, .settle 2 (.resolve [])]).map
        (fun w => w.view) =
      some { tickets := [], loading := false, error := "", searchType := "lot",
             searchQuery := "" } ∧
    (runUI mount [.settle 0 (.resolve [ticketA]), .setSearchType "lot", .submit,
        .settle 1 (.reject "Request failed"), .tryAgain, .settle 2 (.resolve [])]).map
        (fun w => render w.view) =
      some (.page none [] (some "No matching tickets")) := by
  decide

/-- C8 (amended): a query issued from the form or from the retry button whose
call resolves with the empty sequence leaves an empty ticket list with no
error and loading cleared, and the heading shown follows the mode selected on
the page: "No tickets found" when it is `all`, "No matching tickets"
otherwise.  For a query submitted from the form that is the mode the query
was issued in (`all`, `license`, `lot`), and the load on mount shows
"No tickets found"; a retry issues `getAllTickets` whatever mode is selected
and is headed by the selected mode all the same. -/
theorem empty_result_message_follows_selected_mode (w : World) (t : Trigger)
    (query : String) :
    render (step (step w t.event) (.settle w.issued.length (.resolve []))).view =
      .page none []
        (some (if w.view.searchType = "all" then "No tickets found"
          else "No matching tickets")) ∧
    (step (step w t.event) (.settle w.issued.length (.resolve []))).view =
      { w.view with tickets := [], loading := false, error := "" } ∧
    render (step (step (w.withSearch "all" query) .submit)
        (.settle w.issued.length (.resolve []))).view =
      .page none [] (some "No tickets found") ∧
    render (step (step (w.withSearch "license" query) .submit)
        (.settle w.issued.length (.resolve []))).view =
      .page none [] (some "No matching tickets") ∧
    render (step (step (w.withSearch "lot" query) .submit)
        (.settle w.issued.length (.resolve []))).view =
      .page none [] (some "No matching tickets") ∧
    render (step mount (.settle 0 (.resolve []))).view =
      .page none [] (some "No tickets found") ∧
    (step (w.withSearch "lot" query) .tryAgain).issued = w.issued ++ [.getAllTickets] ∧
    render (step (step (w.withSearch "lot" query) .tryAgain)
        (.settle w.issued.length (.resolve []))).view =
      .page none [] (some "No matching tickets") := by
  have h := fun (mode : String) =>
    trigger_then_settle (w.withSearch mode query) .form (.resolve [])
  have hr := trigger_then_settle (w.withSearch "lot" query) .retry (.resolve [])
  simp only [Trigger.event, World.withSearch] at h hr
  simp only [World.withSearch]
  rw [h "all", h "license", h "lot", hr, trigger_then_settle w t (.resolve [])]
  refine ⟨?_, ?_, ?_, ?_, ?_, ?_, ?_, ?_⟩
  · by_cases hm : w.view.searchType = "all" <;> simp [render, resume, truthyString, hm]
  · rfl
  · simp [render, resume, View.withSearch, truthyString]
  · simp [render, resume, View.withSearch, truthyString]
  · simp [render, resume, View.withSearch, truthyString]
  · decide
  · rfl
  · simp [render, resume, View.withSearch, truthyString]

/-! ## Queries over a run of the page -/

theorem formVisible_eq (v : View) : formVisible v = !v.loading := by
  unfold formVisible render
  cases h : v.loading <;> simp

theorem errorVisible_loading (v : View) (h : errorVisible v = true) : v.loading = false := by
  unfold errorVisible render at h
  cases hl : v.loading
  · rfl
  · simp [hl] at h

theorem resume_loading (v : View) (o : Outcome) : (resume v o).loading = false := by
  cases o <;> rfl

/-- A trigger is enabled only on the page, which is not rendered while
loading. -/
theorem trigger_enabled_loading (w : World) (t : Trigger) (h : enabled w t.event = true) :
    w.view.loading = false := by
  cases t with
  | form =>
    have h' : formVisible w.view = true := h
    rw [formVisible_eq] at h'
    simpa using h'
  | retry => exact errorVisible_loading _ h

theorem quiet_mount : Quiet mount := Or.inl ⟨rfl, rfl, rfl, by decide⟩

theorem quiet_step (w : World) (e : Event) (he : enabled w e = true) (hq : Quiet w) :
    Quiet (step w e) := by
  have hissue : ∀ t : Trigger, enabled w t.event = true → Quiet (step w t.event) := by
    intro t ht
    have hl := trigger_enabled_loading w t ht
    rcases hq with ⟨h, _⟩ | ⟨_, hp⟩
    · rw [hl] at h; cases h
    · refine Or.inl ⟨by rw [trigger_view], by rw [trigger_view], ?_, ?_⟩
      · rw [trigger_pending, trigger_issued_length, hp]; rfl
      · rw [trigger_issued_length]; omega
  cases e with
  | setSearchType value => exact hq
  | setSearchQuery value => exact hq
  | submit => exact hissue .form he
  | tryAgain => exact hissue .retry he
  | settle id outcome =>
    have hmem : id ∈ w.pending := by simpa [enabled] using he
    rcases hq with ⟨_, _, hp, _⟩ | ⟨_, hp⟩
    · refine Or.inr ⟨?_, ?_⟩
      · rw [settle_view _ _ _ hmem]; exact resume_loading _ _
      · rw [settle_pending _ _ _ hmem, hp]
        rw [hp] at hmem
        have : id = w.issued.length - 1 := by simpa using hmem
        subst this
        simp
    · rw [hp] at hmem; cases hmem

theorem quiet_runUI (es : List Event) :
    ∀ w w', Quiet w → runUI w es = some w' → Quiet w' := by
  induction es with
  | nil =>
    intro w w' hq h
    simp only [runUI, Option.some.injEq] at h
    exact h ▸ hq
  | cons e es ih =>
    intro w w' hq h
    simp only [runUI] at h
    by_cases he : enabled w e = true
    · rw [if_pos he] at h
      exact ih _ _ (quiet_step w e he hq) h
    · rw [if_neg he] at h; cases h

theorem runUI_pending_le_one (es : List Event) (w : World) (h : runUI mount es = some w) :
    w.pending.length ≤ 1 := by
  rcases quiet_runUI es mount w quiet_mount h with ⟨_, _, hp, _⟩ | ⟨_, hp⟩ <;> simp [hp]

/-- Outside the runs of the page: were a second query started while a first
one is in flight (the handlers run although the loading screen is shown),
the resumptions would write in the order the calls settle, the last one
over the other. -/
theorem unguarded_resumptions_write_in_settle_order (w : World) (tA tB : Trigger)
    (mode query : String) (oA oB : Outcome) :
    (run w [tA.event, .setSearchType mode, .setSearchQuery query, tB.event,
        .settle (w.issued.length + 1) oB, .settle w.issued.length oA]).view =
      resume
        (resume
          { w.view with loading := true, error := "", searchType := mode, searchQuery := query }
          oB)
        oA := by
  simp only [run]
  have e1 : (step (step (step w tA.event) (.setSearchType mode))
      (.setSearchQuery query)).pending = w.pending ++ [w.issued.length] :=
    trigger_pending w tA
  have e2 : (step (step (step w tA.event) (.setSearchType mode))
      (.setSearchQuery query)).issued.length = w.issued.length + 1 :=
    trigger_issued_length w tA
  have e3 : (step (step (step w tA.event) (.setSearchType mode))
      (.setSearchQuery query)).view =
      { w.view with loading := true, error := "", searchType := mode, searchQuery := query } := by
    show ({ (step w tA.event).view with searchType := mode, searchQuery := query } : View) = _
    rw [trigger_view]
  generalize step (step (step w tA.event) (.setSearchType mode)) (.setSearchQuery query) = w1
    at e1 e2 e3
  have p2 : (step w1 tB.event).pending =
      w.pending ++ [w.issued.length] ++ [w.issued.length + 1] := by
    rw [trigger_pending, e1, e2]
  have v2 := trigger_view w1 tB
  rw [e3] at v2
  generalize step w1 tB.event = w2 at p2 v2
  have m1 : w.issued.length + 1 ∈ w2.pending := by rw [p2]; simp
  have m2 : w.issued.length ∈ (step w2 (.settle (w.issued.length + 1) oB)).pending := by
    rw [settle_pending _ _ _ m1, p2]
    refine (List.mem_erase_of_ne (by omega)).2 ?_
    simp
  rw [settle_view _ _ _ m2, settle_view _ _ _ m1, v2]

/-- C3: on every run of the page from mount, a query is issued only when no
call is in flight (form and retry button are replaced by the loading screen
until the call settles), so no query B is ever issued before an earlier
query A has settled.  Hence whenever a result lands it is the result of the
most recently issued query, no other call is in flight, and the view then
holds that result: its tickets when it resolved, its message as the error
when it rejected.  A stale result never overwrites the outcome of the most
recently issued query. -/
theorem page_result_is_of_latest_query (es : List Event) (w : World)
    (hrun : runUI mount es = some w) :
    (∀ t : Trigger, enabled w t.event = true → w.pending = []) ∧
    (∀ (id : Nat) (o : Outcome), id ∈ w.pending →
      id + 1 = w.issued.length ∧ w.pending = [id] ∧
      (∀ t : Trigger, enabled w t.event = false) ∧
      (step w (.settle id o)).pending = [] ∧
      (step w (.settle id o)).view.loading = false ∧
      (step w (.settle id o)).view.tickets =
        (match o with
          | .resolve s => s
          | .reject _ => w.view.tickets) ∧
      (step w (.settle id o)).view.error =
        (match o with
          | .resolve _ => ""
          | .reject m => m)) := by
  have hq := quiet_runUI es mount w quiet_mount hrun
  refine ⟨?_, ?_⟩
  · intro t ht
    have hl := trigger_enabled_loading w t ht
    rcases hq with ⟨h, _⟩ | ⟨_, hp⟩
    · rw [hl] at h; cases h
    · exact hp
  · intro id o hid
    rcases hq with ⟨hl, herr, hp, hpos⟩ | ⟨_, hp⟩
    · have hid' : id = w.issued.length - 1 := by
        rw [hp] at hid
        simpa using hid
      refine ⟨by omega, by rw [hp, hid'], ?_, ?_, ?_, ?_, ?_⟩
      · intro t
        cases ht : enabled w t.event
        · rfl
        · have := trigger_enabled_loading w t ht
          rw [hl] at this; cases this
      · rw [settle_pending _ _ _ hid, hp, hid']
        simp
      · rw [settle_view _ _ _ hid]; exact resume_loading _ _
      · rw [settle_view _ _ _ hid]
        cases o <;> rfl
      · rw [settle_view _ _ _ hid]
        cases o with
        | resolve s => exact herr
        | reject m => rfl
    · rw [hp] at hid; cases hid

/-- C3 (witness): the first load has resolved and a lot search for "LOT-7" is
in flight; it is the call issued last, nothing can be issued meanwhile, and
when it resolves the view holds its ticket. -/
theorem page_result_is_of_latest_query_witness :
    runUI mount [.settle 0 (.resolve [ticketA]), .setSearchType "lot",
        .setSearchQuery "LOT-7", .submit] =
      some (run mount [.settle 0 (.resolve [ticketA]), .setSearchType "lot",
        .setSearchQuery "LOT-7", .submit]) ∧
    1 ∈ (run mount [.settle 0 (.resolve [ticketA]), .setSearchType "lot",
        .setSearchQuery "LOT-7", .submit]).pending ∧
    (step (run mount [.settle 0 (.resolve [ticketA]), .setSearchType "lot",
        .setSearchQuery "LOT-7", .submit]) (.settle 1 (.resolve [ticketB]))).view.tickets =
      [ticketB] :=
  ⟨by decide, by decide,
    ((page_result_is_of_latest_query
      [.settle 0 (.resolve [ticketA]), .setSearchType "lot", .setSearchQuery "LOT-7", .submit]
      _ (by decide)).2 1 (.resolve [ticketB]) (by decide)).2.2.2.2.2.1⟩

/-! ## The view state over time -/

theorem step_loading_or_no_error (w : World) (e : Event)
    (h : w.view.loading = false ∨ w.view.error = "") :
    (step w e).view.loading = false ∨ (step w e).view.error = "" := by
  cases e with
  | setSearchType value => exact h
  | setSearchQuery value => exact h
  | submit => exact Or.inr (congrArg View.error (trigger_view w .form))
  | tryAgain => exact Or.inr (congrArg View.error (trigger_view w .retry))
  | settle id outcome =>
    by_cases hm : id ∈ w.pending
    · exact Or.inl (by rw [settle_view _ _ _ hm]; exact resume_loading _ _)
    · simpa [step, hm] using h

theorem run_loading_or_no_error (es : List Event) :
    ∀ w : World, (w.view.loading = false ∨ w.view.error = "") →
      ((run w es).view.loading = false ∨ (run w es).view.error = "") := by
  induction es with
  | nil => intro w h; exact h
  | cons e es ih => intro w h; exact ih _ (step_loading_or_no_error w e h)

/-- C5 (as stated, refuted): from mount, the first load succeeds with two
tickets, the user selects the lot mode, types "LOT-7" and submits, and the
call rejects.  Every event is enabled on the page where it occurs.  The view
then holds a non-empty error together with the non-empty ticket list of the
earlier success while not loading, and the page shows the banner above the
two tickets. -/
theorem error_and_stale_tickets_together :
    (runUI mount [.settle 0 (.resolve [ticketA, ticketB]), .setSearchType "lot",
        .setSearchQuery "LOT-7", .submit, .settle 1 (.reject "Request failed")]).map
        (fun w => w.view) =
      some { tickets := [ticketA, ticketB], loading := false, error := "Request failed",
             searchType := "lot", searchQuery := "LOT-7" } ∧
    (runUI mount [.settle 0 (.resolve [ticketA, ticketB]), .setSearchType "lot",
        .setSearchQuery "LOT-7", .submit, .settle 1 (.reject "Request failed")]).map
        (fun w => render w.view) =
      some (.page (some "Request failed") [ticketA, ticketB] none) := by
  decide

/-- C5 (amended): after every sequence of events from mount, whether raised
through the page or not, loading is not set together with a non-empty error
(either loading is false or the error is empty), and the loading screen is
never rendered together with the error banner. -/
theorem loading_never_with_error (es : List Event) :
    ((run mount es).view.loading = false ∨ (run mount es).view.error = "") ∧
    (render (run mount es).view ≠ .loadingScreen ∨ errorVisible (run mount es).view = false) := by
  have h := run_loading_or_no_error es mount (Or.inr rfl)
  refine ⟨h, ?_⟩
  cases hl : (run mount es).view.loading
  · exact Or.inl (by simp [render, hl])
  · exact Or.inr (by simp [errorVisible, render, hl])


/-! ## Formatting -/

/-- C9: `formatDateTime` gives "N/A" for an absent value (`null`,
`undefined` or the empty string) and every other value back unchanged. -/
theorem formatDateTime_absent_or_unchanged (value : StrValue) :
    formatDateTime value =
      if value = .null ∨ value = .undefined ∨ value = .str "" then .str "N/A" else value := by
  cases value with
  | null => rfl
  | undefined => rfl
  | str s =>
    by_cases h : s = ""
    · subst h; rfl
    · simp [formatDateTime, StrValue.truthy, truthyString, h]

theorem formatDateTime_truthy (value : StrValue) : (formatDateTime value).truthy = true := by
  cases value with
  | null => rfl
  | undefined => rfl
  | str s =>
    by_cases h : s = ""
    · subst h; rfl
    · simp [formatDateTime, StrValue.truthy, truthyString, h]

/-- C10: whatever the exit time, `null` included, `formatDateTime` gives a
truthy value, so in `formatDateTime(exitTime) || 'Still parked'` the right
operand is never the result: the cell shows what `formatDateTime` gave, "N/A"
for a `null` exit time, and the text "Still parked" only if the exit time is
that very string. -/
theorem exitTime_fallback_never_taken (exitTime : StrValue) :
    (formatDateTime exitTime).truthy = true ∧
    (∀ fallback : StrValue, (formatDateTime exitTime).or fallback = formatDateTime exitTime) ∧
    exitTimeDisplay exitTime = formatDateTime exitTime ∧
    exitTimeDisplay .null = .str "N/A" ∧
    exitTimeDisplay .undefined = .str "N/A" ∧
    (exitTimeDisplay exitTime = .str "Still parked" ↔ exitTime = .str "Still parked") := by
  have ht := formatDateTime_truthy exitTime
  have hor : ∀ fallback : StrValue,
      (formatDateTime exitTime).or fallback = formatDateTime exitTime := by
    intro fallback
    simp [StrValue.or, ht]
  refine ⟨ht, hor, hor _, rfl, rfl, ?_⟩
  show (formatDateTime exitTime).or _ = _ ↔ _
  rw [hor]
  cases exitTime with
  | null => decide
  | undefined => decide
  | str s =>
    by_cases h : s = ""
    · subst h; decide
    · simp [formatDateTime, StrValue.truthy, truthyString, h]


/-! ### Decimal digits -/

theorem toDigitsCore_append (fuel : Nat) :
    ∀ (n : Nat) (ds : List Char),
      Nat.toDigitsCore 10 fuel n ds = Nat.toDigitsCore 10 fuel n [] ++ ds := by
  induction fuel with
  | zero => intro n ds; simp [Nat.toDigitsCore]
  | succ fuel ih =>
    intro n ds
    simp only [Nat.toDigitsCore]
    by_cases h : n / 10 = 0
    · simp [h]
    · simp only [h, if_false]
      rw [ih (n / 10) (Nat.digitChar (n % 10) :: ds), ih (n / 10) [Nat.digitChar (n % 10)]]
      simp

theorem toDigitsCore_fuel (fuel : Nat) :
    ∀ (fuel' n : Nat) (ds : List Char), n < fuel → n < fuel' →
      Nat.toDigitsCore 10 fuel n ds = Nat.toDigitsCore 10 fuel' n ds := by
  induction fuel with
  | zero => intro fuel' n ds h; omega
  | succ fuel ih =>
    intro fuel' n ds h h'
    cases fuel' with
    | zero => omega
    | succ fuel' =>
      simp only [Nat.toDigitsCore]
      by_cases hz : n / 10 = 0
      · simp [hz]
      · simp only [hz, if_false]
        have hlt : n / 10 < n := Nat.div_lt_self (by omega) (by decide)
        exact ih fuel' (n / 10) _ (by omega) (by omega)

theorem toDigits_of_lt_ten (n : Nat) (h : n < 10) :
    Nat.toDigits 10 n = [Nat.digitChar n] := by
  have h0 : n / 10 = 0 := Nat.div_eq_of_lt h
  have h1 : n % 10 = n := Nat.mod_eq_of_lt h
  simp [Nat.toDigits, Nat.toDigitsCore, h0, h1]

theorem toDigits_of_ten_le (n : Nat) (h : 10 ≤ n) :
    Nat.toDigits 10 n = Nat.toDigits 10 (n / 10) ++ [Nat.digitChar (n % 10)] := by
  have hz : n / 10 ≠ 0 := by
    have : 0 < n / 10 := Nat.div_pos h (by decide)
    omega
  have hlt : n / 10 < n := Nat.div_lt_self (by omega) (by decide)
  have hstep : Nat.toDigitsCore 10 (n + 1) n [] =
      Nat.toDigitsCore 10 n (n / 10) [Nat.digitChar (n % 10)] := by
    simp [Nat.toDigitsCore, hz]
  unfold Nat.toDigits
  rw [hstep, toDigitsCore_append, toDigitsCore_fuel n (n / 10 + 1) (n / 10) [] hlt (by omega)]

theorem toDigits_length_pos (n : Nat) : 1 ≤ (Nat.toDigits 10 n).length := by
  by_cases h : n < 10
  · rw [toDigits_of_lt_ten n h]; simp
  · rw [toDigits_of_ten_le n (by omega)]; simp

theorem toDigits_of_hundred_le (n : Nat) (h : 100 ≤ n) :
    Nat.toDigits 10 n =
      Nat.toDigits 10 (n / 100) ++ [Nat.digitChar (n / 10 % 10), Nat.digitChar (n % 10)] := by
  rw [toDigits_of_ten_le n (by omega), toDigits_of_ten_le (n / 10) (by omega),
    Nat.div_div_eq_div_mul]
  simp

/-- The digits `toFixed` writes for two fraction digits: the decimal digits of
`n`, padded to three characters, fall apart into the digits of `n / 100` and
the two digits of `n % 100`. -/
theorem padded_digits_split (n : Nat) :
    let m := if n = 0 then ['0'] else Nat.toDigits 10 n
    let m' := List.replicate (2 + 1 - m.length) '0' ++ m
    m'.take (m'.length - 2) = Nat.toDigits 10 (n / 100) ∧
      m'.drop (m'.length - 2) = [Nat.digitChar (n / 10 % 10), Nat.digitChar (n % 10)] := by
  have hm : (if n = 0 then ['0'] else Nat.toDigits 10 n) = Nat.toDigits 10 n := by
    by_cases h : n = 0
    · subst h; rfl
    · simp [h]
  simp only [hm]
  by_cases h1 : n < 10
  · have e1 : n / 100 = 0 := Nat.div_eq_of_lt (by omega)
    have e2 : n / 10 % 10 = 0 := by omega
    have e3 : n % 10 = n := by omega
    rw [toDigits_of_lt_ten n h1, e1, e2, e3]
    exact ⟨rfl, rfl⟩
  · by_cases h2 : n < 100
    · have e1 : n / 100 = 0 := Nat.div_eq_of_lt h2
      have e2 : n / 10 % 10 = n / 10 := by omega
      rw [toDigits_of_ten_le n (by omega), toDigits_of_lt_ten (n / 10) (by omega), e1, e2]
      exact ⟨rfl, rfl⟩
    · rw [toDigits_of_hundred_le n (by omega)]
      have hlen : (2 + 1 - (Nat.toDigits 10 (n / 100) ++
          [Nat.digitChar (n / 10 % 10), Nat.digitChar (n % 10)]).length) = 0 := by
        have := toDigits_length_pos (n / 100)
        simp only [List.length_append, List.length_cons, List.length_nil]
        omega
      rw [hlen]
      simp


/-! ### Prices -/

/-- Below `10^21` the method `toFixed(2)` writes the sign, the decimal digits
of `n / 100`, a point and the two digits of `n % 100`, where `n` is the
integer nearest to a hundred times the magnitude. -/
theorem toFixed_two_of_lt (q : ℚ) (hlt : |q| < 10 ^ 21) :
    toFixed (.finite q) 2 =
      twoDecimals (decide (q < 0)) (⌊|q| * 10 ^ 2 + 1 / 2⌋.toNat / 100)
        (⌊|q| * 10 ^ 2 + 1 / 2⌋.toNat / 10 % 10) (⌊|q| * 10 ^ 2 + 1 / 2⌋.toNat % 10) := by
  have hsplit := padded_digits_split ⌊|q| * 10 ^ 2 + 1 / 2⌋.toNat
  simp only [] at hsplit
  unfold toFixed twoDecimals
  simp only []
  rw [if_neg (not_le.2 hlt), if_pos (by decide), hsplit.1, hsplit.2]
  simp only [decide_eq_true_eq]
  rfl

theorem formatPrice_of_truthy (price : Price) (h : price.truthy = true) :
    formatPrice price = "R " ++ toFixed (parseFloat price) 2 := by
  simp [formatPrice, h]

theorem formatPrice_of_falsy (price : Price) (h : price.truthy = false) :
    formatPrice price = "Not paid" := by
  simp [formatPrice, h]

theorem truthy_finite (q : ℚ) (h : q ≠ 0) : (Price.num (.finite q)).truthy = true := by
  simp [Price.truthy, Number.truthy, h]

/-- A string written with two decimal places has the point third from the
end. -/
theorem twoDecimals_point (negative : Bool) (ip d1 d2 : Nat) :
    ("R " ++ twoDecimals negative ip d1 d2).data.reverse.get? 2 = some '.' := by
  simp [twoDecimals, String.data_append]


theorem nearest_hundredth (x : ℚ) (hx : 0 ≤ x) :
    |((⌊x * 10 ^ 2 + 1 / 2⌋.toNat / 100 : Nat) : ℚ) +
        ((⌊x * 10 ^ 2 + 1 / 2⌋.toNat / 10 % 10 : Nat) : ℚ) / 10 +
        ((⌊x * 10 ^ 2 + 1 / 2⌋.toNat % 10 : Nat) : ℚ) / 100 - x| ≤ 1 / 200 := by
  have hy : (0 : ℚ) ≤ x * 10 ^ 2 + 1 / 2 := by positivity
  have hfloor : ((⌊x * 10 ^ 2 + 1 / 2⌋.toNat : Nat) : ℤ) = ⌊x * 10 ^ 2 + 1 / 2⌋ :=
    Int.toNat_of_nonneg (Int.floor_nonneg.2 hy)
  have hle := Int.floor_le (x * 10 ^ 2 + 1 / 2)
  have hlt := Int.lt_floor_add_one (x * 10 ^ 2 + 1 / 2)
  rw [← hfloor] at hle hlt
  generalize ⌊x * 10 ^ 2 + 1 / 2⌋.toNat = n at hle hlt
  have hn : n = 100 * (n / 100) + 10 * (n / 10 % 10) + n % 10 := by omega
  have hq : (n : ℚ) = 100 * ((n / 100 : Nat) : ℚ) + 10 * ((n / 10 % 10 : Nat) : ℚ) +
      ((n % 10 : Nat) : ℚ) := by exact_mod_cast hn
  have hle' : (n : ℚ) ≤ x * 10 ^ 2 + 1 / 2 := by exact_mod_cast hle
  have hlt' : x * 10 ^ 2 + 1 / 2 < (n : ℚ) + 1 := by exact_mod_cast hlt
  rw [abs_le]
  constructor <;> linarith

/-- C6 (as stated, refuted): the price `10^21`, a double (it is `5^21 * 2^21`
with `5^21 < 2^53`) and truthy, is formatted as "R 1e+21", which is not the
price written with two decimal places; an infinite price gives
"R Infinity". -/
theorem formatPrice_large_not_two_decimals :
    (Price.num (.finite (10 ^ 21))).truthy = true ∧
    formatPrice (.num (.finite (10 ^ 21))) = "R 1e+21" ∧
    (¬ ∃ (negative : Bool) (ip d1 d2 : Nat),
      formatPrice (.num (.finite (10 ^ 21))) = "R " ++ twoDecimals negative ip d1 d2) ∧
    (Price.num (.infinity false)).truthy = true ∧
    formatPrice (.num (.infinity false)) = "R Infinity" := by
  have ht : (Price.num (.finite (10 ^ 21))).truthy = true := truthy_finite _ (by norm_num)
  have habs : |(10 : ℚ) ^ 21| = 10 ^ 21 := abs_of_pos (by norm_num)
  have hfl : ⌊(10 : ℚ) ^ 21⌋.toNat = 10 ^ 21 := by
    have : (10 : ℚ) ^ 21 = ((10 ^ 21 : ℕ) : ℚ) := by norm_num
    rw [this, Int.floor_natCast, Int.toNat_natCast]
  have hv : formatPrice (.num (.finite (10 ^ 21))) = "R 1e+21" := by
    rw [formatPrice_of_truthy _ ht]
    unfold parseFloat toFixed
    simp only []
    rw [habs, if_pos le_rfl, if_neg (by norm_num), hfl]
    decide
  refine ⟨ht, hv, ?_, rfl, by decide⟩
  rintro ⟨negative, ip, d1, d2, h⟩
  have hp := twoDecimals_point negative ip d1 d2
  rw [← h, hv] at hp
  revert hp
  decide

/-- C6 (amended): a finite price other than zero and of magnitude below
`10^21` is formatted as "R " followed by the amount written with exactly two
decimal places (a minus sign for a negative price, the integer part, a point
and two digits), the amount written being within half a hundredth of the
price; so `formatPrice(45.5)` is "R 45.50".  A falsy price gives "Not paid":
`null`, `undefined`, `NaN` and `0`. -/
theorem formatPrice_two_decimals (q : ℚ) (h0 : q ≠ 0) (hlt : |q| < 10 ^ 21) :
    (∃ ip d1 d2 : Nat, d1 < 10 ∧ d2 < 10 ∧
      formatPrice (.num (.finite q)) = "R " ++ twoDecimals (decide (q < 0)) ip d1 d2 ∧
      abs ((ip : ℚ) + (d1 : ℚ) / 10 + (d2 : ℚ) / 100 - |q|) ≤ 1 / 200) ∧
    formatPrice (.num (.finite (91 / 2))) = "R 45.50" ∧
    formatPrice .null = "Not paid" ∧
    formatPrice .undefined = "Not paid" ∧
    formatPrice (.num (.finite 0)) = "Not paid" ∧
    formatPrice (.num .nan) = "Not paid" ∧
    (∀ price : Price, price.truthy = true ∨ formatPrice price = "Not paid") := by
  refine ⟨⟨_, _, _, Nat.mod_lt _ (by decide), Nat.mod_lt _ (by decide), ?_,
    nearest_hundredth |q| (abs_nonneg q)⟩, ?_, rfl, rfl, by decide, rfl, ?_⟩
  · rw [formatPrice_of_truthy _ (truthy_finite q h0)]
    show "R " ++ toFixed (.finite q) 2 = _
    rw [toFixed_two_of_lt q hlt]
  · have habs : |(91 / 2 : ℚ)| = 91 / 2 := abs_of_pos (by norm_num)
    have hfl : ⌊|(91 / 2 : ℚ)| * 10 ^ 2 + 1 / 2⌋.toNat = 4550 := by
      have hf : ⌊|(91 / 2 : ℚ)| * 10 ^ 2 + 1 / 2⌋ = 4550 := by
        rw [Int.floor_eq_iff, habs]
        constructor <;> norm_num
      rw [hf]
      rfl
    rw [formatPrice_of_truthy _ (truthy_finite _ (by norm_num))]
    show "R " ++ toFixed (.finite (91 / 2)) 2 = _
    rw [toFixed_two_of_lt _ (by rw [habs]; norm_num), hfl]
    have hneg : decide ((91 / 2 : ℚ) < 0) = false := by
      rw [decide_eq_false_iff_not]; norm_num
    rw [hneg]
    decide
  · intro price
    cases h : price.truthy
    · exact Or.inr (formatPrice_of_falsy price h)
    · exact Or.inl rfl

/-- C6 (witness): the price 45.5 is not zero, lies below `10^21` and is
formatted with two decimal places. -/
theorem formatPrice_two_decimals_witness :
    (91 / 2 : ℚ) ≠ 0 ∧ |(91 / 2 : ℚ)| < 10 ^ 21 ∧
      formatPrice (.num (.finite (91 / 2))) = "R 45.50" :=
  ⟨by norm_num, by rw [abs_of_pos (by norm_num)]; norm_num,
    (formatPrice_two_decimals (91 / 2) (by norm_num)
      (by rw [abs_of_pos (by norm_num)]; norm_num)).2.1⟩

end Tickets
